import Mathlib

/-!
Verification of the inventory reconciliation and stock-ledger consistency model of
the "Alumasa Controle do Almoxarifado" application.

The repository is a React single-page application whose state lives in three
in-memory arrays (items, users, movement history).  The definitions below are a
shallow embedding of the state-mutating handlers that the specification's claims
are about:

* `Inventory.tsx` — `filteredItems`, `itemsToUpdate`, `summary`, `handleSaveInventory`;
* `NewEntry` (bundled in `UserManagement.tsx`) — `NewEntry.handleSubmit`;
* `NewExit` (bundled in `SupplierManagement.tsx`) — `NewExit.handleSubmit`;
* `StockList.tsx` — `StockList.handleSaveItem`;
* `BackupRestore.tsx` — `handleRestoreBackup`.

Modelling conventions:

* JavaScript numbers are modelled as rationals (`ℚ`).  IEEE special values
  (`NaN`, `Infinity`) are not representable; `parseFloat` is modelled as an
  `Option ℚ`-valued function with `none` playing the role of `NaN`, and every
  place the source checks `isNaN` is modelled by matching on that option.
* JavaScript string primitives (`trim`, `toLowerCase`, `includes`) are modelled
  directly on the character list of the string (`jsTrim`, `jsToLower`,
  `jsIncludes`), mirroring their JavaScript semantics.
* A JavaScript object used as a string-keyed map (`countedQuantities`) is
  modelled as an association list `List (String × String)`; JavaScript object
  keys are unique, which is carried as a `Nodup` hypothesis where it matters.
* React `setX(f)` state updates are modelled by returning the new value.
-/

namespace Almoxarifado

/-- The `Item` interface of `types.ts`. -/
structure Item where
  id : String
  code : String
  description : String
  category : String
  location : String
  unit : String
  stockQuantity : ℚ
  minQuantity : ℚ
  leadTimeDays : ℚ
  avgUnitValue : ℚ
  totalValue : ℚ
deriving DecidableEq

/-- The movement direction of the `EntryExitRecord` interface of `types.ts`. -/
inductive MovementType where
  | entry
  | exit
deriving DecidableEq

/-- The `EntryExitRecord` interface of `types.ts`. -/
structure EntryExitRecord where
  id : String
  itemId : String
  type : MovementType
  quantity : ℚ
  date : String
deriving DecidableEq

/-! ### JavaScript string and number primitives used by the handlers -/

/-- Whitespace characters recognised by JavaScript `parseFloat` and `trim`. -/
def jsWhitespace (c : Char) : Bool :=
  c = ' ' || c = '\t' || c = '\n' || c = '\r' || c = '\x0b' || c = '\x0c'

/-- Model of JavaScript `String.prototype.trim`: strip leading and trailing
whitespace. -/
def jsTrim (s : String) : String :=
  ⟨((s.data.dropWhile jsWhitespace).reverse.dropWhile jsWhitespace).reverse⟩

/-- Model of JavaScript `String.prototype.toLowerCase` (ASCII case folding,
which is all the item codes in this application use). -/
def jsToLower (s : String) : String :=
  ⟨s.data.map Char.toLower⟩

/-- Helper for `jsIncludes`: does `sub` occur as a contiguous run of `l`? -/
def containsSub (sub : List Char) : List Char → Bool
  | [] => sub.isEmpty
  | c :: cs => sub.isPrefixOf (c :: cs) || containsSub sub cs

/-- Model of JavaScript `String.prototype.includes`. -/
def jsIncludes (s sub : String) : Bool :=
  containsSub sub.data s.data

/-- The purely syntactic phase of JavaScript `parseFloat`: skip leading
whitespace, then read the longest prefix of the form
`[+-]? digits? (. digits?)? ([eE] [+-]? digits)?` containing at least one
mantissa digit; any trailing garbage is ignored.  Returns the parsed sign,
integer-part value, fractional-part value and length, and exponent; `none`
where JavaScript returns `NaN` (no numeric prefix).  The `Infinity` literal is
not modelled (infinite values do not exist in `ℚ` and never occur in the
inputs considered here). -/
def parseFloatRaw (s : String) :
    Option (Bool × ℕ × ℕ × ℕ × (Bool × ℕ)) :=
  let cs := s.data.dropWhile jsWhitespace
  let signAndRest : Bool × List Char :=
    match cs with
    | '-' :: rest => (true, rest)
    | '+' :: rest => (false, rest)
    | _ => (false, cs)
  let neg := signAndRest.1
  let cs1 := signAndRest.2
  let intDigits := cs1.takeWhile Char.isDigit
  let afterInt := cs1.dropWhile Char.isDigit
  let fracAndRest : List Char × List Char :=
    match afterInt with
    | '.' :: rest => (rest.takeWhile Char.isDigit, rest.dropWhile Char.isDigit)
    | _ => ([], afterInt)
  let fracDigits := fracAndRest.1
  let afterFrac := fracAndRest.2
  if intDigits.isEmpty && fracDigits.isEmpty then
    none
  else
    let exponent : Bool × ℕ :=
      match afterFrac with
      | c :: rest =>
        if c = 'e' || c = 'E' then
          let expSignAndRest : Bool × List Char :=
            match rest with
            | '-' :: r => (true, r)
            | '+' :: r => (false, r)
            | _ => (false, rest)
          let expDigits := expSignAndRest.2.takeWhile Char.isDigit
          if expDigits.isEmpty then (false, 0)
          else (expSignAndRest.1, (expDigits.map (fun c => c.toNat - '0'.toNat)).foldl (fun n d => 10 * n + d) 0)
        else (false, 0)
      | [] => (false, 0)
    some (neg,
      (intDigits.map (fun c => c.toNat - '0'.toNat)).foldl (fun n d => 10 * n + d) 0,
      (fracDigits.map (fun c => c.toNat - '0'.toNat)).foldl (fun n d => 10 * n + d) 0,
      fracDigits.length,
      exponent)

/-- The numeric phase of `parseFloat`: the rational value of a parse result. -/
def ratOfParse (p : Bool × ℕ × ℕ × ℕ × (Bool × ℕ)) : ℚ :=
  (if p.1 then (-1 : ℚ) else 1) *
    ((p.2.1 : ℚ) + (p.2.2.1 : ℚ) / (10 : ℚ) ^ p.2.2.2.1) *
    (10 : ℚ) ^ (if p.2.2.2.2.1 then -(p.2.2.2.2.2 : ℤ) else (p.2.2.2.2.2 : ℤ))

/-- Model of JavaScript `parseFloat` (see `parseFloatRaw`). -/
def parseFloat (s : String) : Option ℚ :=
  (parseFloatRaw s).map ratOfParse


/-! ### `Inventory.tsx` — the Inventory Reconciler

The component keeps `countedQuantities : Record<string, string>` (modelled as an
association list) and derives `filteredItems`, `itemsToUpdate` and `summary`
from it; `handleSaveInventory` commits the count into the item list. -/

/-- The filter predicate of `filteredItems` in `Inventory.tsx` (lines 28-35):
category and location must match exactly when a filter is set, and the search
term must occur (case-insensitively) in the description or the code. -/
def matchesFilters (filterCategory filterLocation searchTerm : String) (item : Item) : Bool :=
  (if filterCategory ≠ "" then item.category = filterCategory else true) &&
  (if filterLocation ≠ "" then item.location = filterLocation else true) &&
  (if searchTerm ≠ "" then
      jsIncludes (jsToLower item.description) (jsToLower searchTerm) ||
      jsIncludes (jsToLower item.code) (jsToLower searchTerm)
    else true)

/-- The memo `filteredItems` of `Inventory.tsx`.  The source additionally sorts the
filtered list by locale-compared location and code; the sort is not modelled
because every use relevant to the claims (membership and `.length`) is
insensitive to order. -/
def filteredItems (items : List Item) (filterCategory filterLocation searchTerm : String) :
    List Item :=
  items.filter (matchesFilters filterCategory filterLocation searchTerm)

/-- One element of the `itemsToUpdate` list of `Inventory.tsx`: the spread of
the matched item together with the parsed counted quantity and the signed
difference. -/
structure Divergence where
  item : Item
  newQuantity : ℚ
  difference : ℚ
deriving DecidableEq

/-- The memo `itemsToUpdate` of `Inventory.tsx` (lines 59-69): for every entry of
`countedQuantities`, skip it when the raw value is the empty string, when no
item has the entry's key as id, when the value does not parse as a number
(`isNaN`), or when the parsed value equals the item's current stock quantity;
otherwise produce a `Divergence`.  (The source's `undefined`/`null` guards
cannot fire: `Object.entries` of a `Record<string, string>` yields strings.) -/
def itemsToUpdate (items : List Item) (counted : List (String × String)) : List Divergence :=
  counted.filterMap (fun kv =>
    if kv.2 = "" then none
    else
      match items.find? (fun i => i.id = kv.1), parseFloat kv.2 with
      | some item, some countedQty =>
        if item.stockQuantity = countedQty then none
        else some ⟨item, countedQty, countedQty - item.stockQuantity⟩
      | _, _ => none)

/-- The result record of `summary` in `Inventory.tsx`. -/
structure Summary where
  countedItemsCount : ℕ
  progress : ℚ
  divergenceCount : ℕ
  totalAdjustmentValue : ℚ
deriving DecidableEq

/-- The memo `summary` of `Inventory.tsx` (lines 71-81).  `countedItemsCount` is the
size of the `Set` of keys of `countedQuantities` whose value does not trim to
the empty string (note: it is computed from the whole counted map, not from
`filteredItems`); `progress` divides it by `filteredItems.length`;
`divergenceCount` and `totalAdjustmentValue` come from `itemsToUpdate`. -/
def summary (filtered : List Item) (items : List Item) (counted : List (String × String)) :
    Summary :=
  let countedItemsCount :=
    (((counted.filter (fun kv => jsTrim kv.2 ≠ "")).map Prod.fst).dedup).length
  let progress : ℚ :=
    if 0 < filtered.length then (countedItemsCount : ℚ) / (filtered.length : ℚ) * 100 else 0
  let upd := itemsToUpdate items counted
  { countedItemsCount := countedItemsCount
    progress := progress
    divergenceCount := upd.length
    totalAdjustmentValue := upd.foldl (fun sum d => sum + d.difference * d.item.avgUnitValue) 0 }

/-- The per-item body of the `items.map` inside `handleSaveInventory` of
`Inventory.tsx` (lines 84-97): when the item has a counted value that does not
trim to the empty string and parses as a number, overwrite `stockQuantity`
with the parsed value and recompute `totalValue`; otherwise return the item
unchanged. -/
def applyCount (counted : List (String × String)) (item : Item) : Item :=
  match counted.lookup item.id with
  | some countedStr =>
    if jsTrim countedStr ≠ "" then
      match parseFloat countedStr with
      | some countedQty =>
        { item with stockQuantity := countedQty, totalValue := countedQty * item.avgUnitValue }
      | none => item
    else item
  | none => item

/-- The handler `handleSaveInventory` of `Inventory.tsx` (lines 83-102): the new item list
passed to `setItems` (the handler afterwards clears `countedQuantities` and
closes the modal, which needs no modelling). -/
def handleSaveInventory (items : List Item) (counted : List (String × String)) : List Item :=
  items.map (applyCount counted)

/-! ### `NewEntry` (bundled in `UserManagement.tsx`) — entry recording

`handleSubmit` (lines 566-622) validates the form and then replaces the item
list via `setItems`, adding the parsed quantity to the matched item's stock and
recomputing its total value.  The `quantity` field is a `type="number"` input,
so its value string is either empty (rejected by the required-fields guard) or
numeric; the parsed quantity is therefore modelled as a rational.  The
component receives only `items`/`setItems` as state props: it performs no write
to the `entryExitHistory` array. -/

namespace NewEntry

/-- The form state of the `NewEntry` component that `handleSubmit` reads. -/
structure Form where
  code : String
  description : String
  quantity : ℚ
  supplier : String
  invoice : String
deriving DecidableEq

/-- The error outcomes of `NewEntry.handleSubmit` (each one sets an error
status message and leaves the item list untouched). -/
inductive SubmitError where
  | fixErrorsFirst
  | missingFields
  | nonPositiveQuantity
  | itemNotFound
deriving DecidableEq

/-- The handler `NewEntry.handleSubmit`: `codeError` is the component's pre-validation
state (set by `handleCodeBlur` when the typed code matches no item). -/
def handleSubmit (items : List Item) (codeError : Bool) (f : Form) :
    Except SubmitError (List Item) :=
  if codeError then .error .fixErrorsFirst
  else if f.code = "" || f.description = "" || f.supplier = "" || f.invoice = "" then
    .error .missingFields
  else if f.quantity ≤ 0 then .error .nonPositiveQuantity
  else
    match items.find? (fun i => jsToLower i.code = jsToLower f.code) with
    | none => .error .itemNotFound
    | some itemToUpdate =>
      .ok (items.map (fun item =>
        if item.id = itemToUpdate.id then
          { item with
              stockQuantity := item.stockQuantity + f.quantity,
              totalValue := (item.stockQuantity + f.quantity) * item.avgUnitValue }
        else item))

end NewEntry

/-! ### `NewExit` (bundled in `SupplierManagement.tsx`) — exit recording

`handleSubmit` (lines 287-334) validates the form, rejects an exit whose
quantity exceeds the selected item's current stock, and otherwise replaces the
item list via `setItems`, subtracting the quantity from the matched item's
stock and recomputing its total value.  As with `NewEntry`, the quantity comes
from a `type="number"` input and is modelled as the parsed rational, and the
component has no access to the `entryExitHistory` array. -/

namespace NewExit

/-- The error outcomes of `NewExit.handleSubmit`. -/
inductive SubmitError where
  | missingFields
  | nonPositiveQuantity
  | insufficientStock
deriving DecidableEq

/-- The handler `NewExit.handleSubmit`: `itemId` is the id of the item selected in the
search box (empty string when none is selected), `qty` the parsed quantity.
The insufficient-stock guard reads `selectedItem`, the first item whose id is
`itemId`, and is skipped (JavaScript `selectedItem && ...`) when there is no
such item — in which case the `items.map` below changes nothing. -/
def handleSubmit (items : List Item) (itemId : String) (qty : ℚ)
    (requester responsible : String) : Except SubmitError (List Item) :=
  if itemId = "" || requester = "" || responsible = "" then .error .missingFields
  else if qty ≤ 0 then .error .nonPositiveQuantity
  else if (match items.find? (fun i => i.id = itemId) with
           | some selectedItem => decide (selectedItem.stockQuantity < qty)
           | none => false) then .error .insufficientStock
  else
    .ok (items.map (fun item =>
      if item.id = itemId then
        { item with
            stockQuantity := item.stockQuantity - qty,
            totalValue := (item.stockQuantity - qty) * item.avgUnitValue }
      else item))

end NewExit

/-! ### Application state (`App.tsx`)

`App.tsx` owns the three state arrays and passes `items`/`setItems` to
`NewEntry` and `NewExit`; `entryExitHistory`/`setHistory` are passed only to
the read-only reporting components and to `BackupRestore`.  The wrappers below
record the effect of the two movement handlers on the combined state. -/

/-- The item list and movement history held by `App.tsx`. -/
structure AppState where
  items : List Item
  history : List EntryExitRecord
deriving DecidableEq

/-- Effect of a `NewEntry.handleSubmit` call on the `App.tsx` state: the
handler calls `setItems` with the new list and touches no other state array. -/
def NewEntry.handleSubmitApp (s : AppState) (codeError : Bool) (f : NewEntry.Form) :
    Except NewEntry.SubmitError AppState :=
  (NewEntry.handleSubmit s.items codeError f).map (fun items => { s with items := items })

/-- Effect of a `NewExit.handleSubmit` call on the `App.tsx` state. -/
def NewExit.handleSubmitApp (s : AppState) (itemId : String) (qty : ℚ)
    (requester responsible : String) : Except NewExit.SubmitError AppState :=
  (NewExit.handleSubmit s.items itemId qty requester responsible).map
    (fun items => { s with items := items })

/-! ### `StockList.tsx` — item creation and editing -/

namespace StockList

/-- The `Partial<Item>` draft (`itemToEdit`) that `handleSaveItem` reads.
String fields that are `undefined` in the source behave, through the
`!x || String(x).trim() === ''` guard, exactly like the empty string, so they
are modelled as `String` with `""` for `undefined`.  `id = none` means the
draft was opened by `openCreateModal` (creation); `id = some _` means an
existing item is being edited. -/
structure ItemDraft where
  id : Option String
  code : String
  description : String
  category : String
  location : String
  unit : String
  stockQuantity : ℚ
  minQuantity : ℚ
  leadTimeDays : ℚ
  avgUnitValue : ℚ
  totalValue : ℚ
deriving DecidableEq

/-- The outcomes of `StockList.handleSaveItem`: the required-field and
duplicate-code toasts (which leave the list unchanged), or a successful edit
or creation. -/
inductive SaveResult where
  | missingRequiredField
  | duplicateCode
  | savedEdit
  | savedNew
deriving DecidableEq

/-- The handler `handleSaveItem` of `StockList.tsx` (lines 230-293).  For a creation the
five required text fields must be non-blank and the trimmed, lower-cased code
must differ from every existing item's trimmed, lower-cased code; the new item
is appended with trimmed text fields, the fresh id `newId` (the source uses
`item-${Date.now()}`), and recomputed total value.  For an edit the draft
replaces the item with the same id, with recomputed total value and no
validation.  The `stockQuantity === null || undefined` guard of the source
cannot fire here because the draft always carries a number. -/
def handleSaveItem (items : List Item) (draft : ItemDraft) (newId : String) :
    SaveResult × List Item :=
  match draft.id with
  | some id =>
    (.savedEdit, items.map (fun item =>
      if item.id = id then
        { id := id, code := draft.code, description := draft.description,
          category := draft.category, location := draft.location, unit := draft.unit,
          stockQuantity := draft.stockQuantity, minQuantity := draft.minQuantity,
          leadTimeDays := draft.leadTimeDays, avgUnitValue := draft.avgUnitValue,
          totalValue := draft.stockQuantity * draft.avgUnitValue }
      else item))
  | none =>
    if jsTrim draft.code = "" || jsTrim draft.description = "" || jsTrim draft.category = "" ||
        jsTrim draft.location = "" || jsTrim draft.unit = "" then
      (.missingRequiredField, items)
    else if items.any (fun item => jsToLower (jsTrim item.code) = jsToLower (jsTrim draft.code)) then
      (.duplicateCode, items)
    else
      (.savedNew, items ++ [{
        id := newId, code := jsTrim draft.code, description := jsTrim draft.description,
        category := jsTrim draft.category, location := jsTrim draft.location,
        unit := jsTrim draft.unit, stockQuantity := draft.stockQuantity,
        minQuantity := draft.minQuantity, leadTimeDays := draft.leadTimeDays,
        avgUnitValue := draft.avgUnitValue,
        totalValue := draft.stockQuantity * draft.avgUnitValue }])

end StockList

/-! ### `BackupRestore.tsx` — snapshot restore

`handleRestoreBackup` (lines 63-99) parses the selected file with
`JSON.parse`, checks that the parsed value has `items`, `users` and `history`
fields that are all arrays, and only then calls `setItems`, `setUsers` and
`setHistory`; any parse or validation failure is caught and leaves the three
arrays untouched.  The restore is a trusted bulk load with no per-element
validation, so the restored arrays are modelled as arrays of raw JSON
values. -/

/-- A JSON value, the result of `JSON.parse`. -/
inductive Json where
  | null
  | bool (b : Bool)
  | num (q : ℚ)
  | str (s : String)
  | arr (elems : List Json)
  | obj (fields : List (String × Json))

/-- JavaScript property access `data.k` for the restore validation: `some v`
when `data` is an object with a field `k`.  On any other value the source
either throws immediately (`null.k`) or yields `undefined` and then throws its
own validation error (`!undefined`); both land in the same `catch`, so `none`
models them all. -/
def Json.getField (data : Json) (k : String) : Option Json :=
  match data with
  | .obj fields => fields.lookup k
  | _ => none

/-- The validation of `handleRestoreBackup`:
`!data.items || !data.users || !data.history` followed by the three
`Array.isArray` checks fails exactly when some of the three fields is absent,
falsy, or not an array — that is, succeeds exactly when all three fields are
arrays (an array is always truthy). -/
def validSnapshot (data : Json) : Bool :=
  (match data.getField "items" with | some (.arr _) => true | _ => false) &&
  (match data.getField "users" with | some (.arr _) => true | _ => false) &&
  (match data.getField "history" with | some (.arr _) => true | _ => false)

/-- The three state arrays that `BackupRestore.tsx` can replace. -/
structure BackupState where
  items : List Json
  users : List Json
  history : List Json

/-- The body of the `reader.onload` callback of `handleRestoreBackup` after a
successful `JSON.parse`: validate the shape, then replace all three arrays at
once; on a validation failure the `catch` branch only shows a toast and the
state is untouched. -/
def restoreFromData (data : Json) (s : BackupState) : BackupState × Bool :=
  if validSnapshot data then
    match data.getField "items", data.getField "users", data.getField "history" with
    | some (.arr is), some (.arr us), some (.arr hs) => (⟨is, us, hs⟩, true)
    | _, _, _ => (s, false)
  else (s, false)

/-- The handler `handleRestoreBackup` of `BackupRestore.tsx`: `parsed` is the result of
`JSON.parse` on the file contents (`none` when parsing throws, which the
`catch` turns into a toast with the state untouched).  Returns the new state
and whether the restore succeeded. -/
def handleRestoreBackup (parsed : Option Json) (s : BackupState) : BackupState × Bool :=
  match parsed with
  | none => (s, false)
  | some data => restoreFromData data s

/-! ### Mock fixtures (`data/mock.ts`) -/

/-- The five items of `mockItems` in `data/mock.ts` (the
`preferredSupplierId` field is not part of the `Item` interface in `types.ts`
and is not used by any handler modelled here). -/
def mockItems : List Item :=
  [{ id := "1", code := "PAR-001", description := "Parafuso Sextavado M8",
     category := "Fixadores", location := "A1-01", unit := "UN",
     stockQuantity := 1500, minQuantity := 500, leadTimeDays := 5,
     avgUnitValue := 3 / 4, totalValue := 1125 },
   { id := "2", code := "CHP-010", description := "Chapa de Aço",
     category := "Matéria-prima", location := "B2-05", unit := "KG",
     stockQuantity := 450, minQuantity := 1000, leadTimeDays := 15,
     avgUnitValue := 17 / 2, totalValue := 3825 },
   { id := "3", code := "TUB-304", description := "Tubo Inox",
     category := "Matéria-prima", location := "B2-06", unit := "M",
     stockQuantity := 120, minQuantity := 50, leadTimeDays := 10,
     avgUnitValue := 226 / 5, totalValue := 5424 },
   { id := "4", code := "EPI-002", description := "Luva de Proteção",
     category := "EPI", location := "C3-12", unit := "PAR",
     stockQuantity := 80, minQuantity := 100, leadTimeDays := 7,
     avgUnitValue := 12, totalValue := 960 },
   { id := "5", code := "SOL-005", description := "Eletrodo para Solda",
     category := "Consumíveis", location := "A1-02", unit := "KG",
     stockQuantity := 25, minQuantity := 20, leadTimeDays := 3,
     avgUnitValue := 35, totalValue := 875 }]

/-! ### Concrete fixtures used by witnesses and counterexamples -/

/-- A concrete item with a valid total value, used as a one-item ledger. -/
def itemW : Item :=
  { id := "1", code := "PAR-001", description := "Parafuso", category := "Fixadores",
    location := "A1-01", unit := "UN", stockQuantity := 10, minQuantity := 2,
    leadTimeDays := 1, avgUnitValue := 1, totalValue := 10 }

theorem parseFloat_seven : parseFloat "7" = some 7 := by
  rw [parseFloat, show parseFloatRaw "7" = some (false, 7, 0, 0, (false, 0)) from by decide]
  norm_num [ratOfParse]

theorem parseFloat_neg_five : parseFloat "-5" = some (-5) := by
  rw [parseFloat, show parseFloatRaw "-5" = some (true, 5, 0, 0, (false, 0)) from by decide]
  norm_num [ratOfParse]

/-! ### Helper lemmas -/

/-- A successful association-list lookup produces a member of the list. -/
theorem lookup_mem {l : List (String × String)} {k v : String}
    (h : l.lookup k = some v) : (k, v) ∈ l := by
  induction l with
  | nil => simp [List.lookup] at h
  | cons a tl ih =>
    obtain ⟨k', v'⟩ := a
    by_cases hk : k = k'
    · subst hk
      simp [List.lookup_cons] at h
      subst h
      exact List.mem_cons_self _ _
    · rw [List.lookup_cons, beq_false_of_ne hk] at h
      exact List.mem_cons_of_mem _ (ih h)

/-- When mapping `f` over `l` yields no duplicates, `f` is injective on the
members of `l`. -/
theorem nodup_inj {α β : Type} {f : α → β} {l : List α} (h : (l.map f).Nodup)
    {a b : α} (ha : a ∈ l) (hb : b ∈ l) (hf : f a = f b) : a = b :=
  List.inj_on_of_nodup_map h ha hb hf

/-- A left fold that only accumulates sums is a sum. -/
theorem foldl_add_map {α : Type} (g : α → ℚ) (l : List α) (c : ℚ) :
    l.foldl (fun s d => s + g d) c = c + (l.map g).sum := by
  induction l generalizing c with
  | nil => simp
  | cons a tl ih => simp [ih, add_assoc]

/-- The per-item commit `applyCount` preserves the total-value invariant of a single item (the two
branches that change the item recompute `totalValue` from the new quantity). -/
theorem applyCount_totalValue (counted : List (String × String)) (a : Item)
    (ha : a.totalValue = a.stockQuantity * a.avgUnitValue) :
    (applyCount counted a).totalValue =
      (applyCount counted a).stockQuantity * (applyCount counted a).avgUnitValue := by
  unfold applyCount
  split
  · split
    · split
      · rfl
      · exact ha
    · exact ha
  · exact ha

/-- C1: after each of the three ledger mutations — recording an entry
(`NewEntry.handleSubmit`), recording an exit (`NewExit.handleSubmit`), and
committing a reconciliation count (`handleSaveInventory`) — every item of the
resulting item list satisfies `totalValue = stockQuantity * avgUnitValue`,
provided every item satisfied it before the mutation (touched items get the
product recomputed, untouched items keep their fields). -/
theorem C1_total_value_invariant (items : List Item)
    (hinv : ∀ i ∈ items, i.totalValue = i.stockQuantity * i.avgUnitValue) :
    (∀ codeError f items', NewEntry.handleSubmit items codeError f = .ok items' →
      ∀ i ∈ items', i.totalValue = i.stockQuantity * i.avgUnitValue) ∧
    (∀ itemId qty requester responsible items',
      NewExit.handleSubmit items itemId qty requester responsible = .ok items' →
      ∀ i ∈ items', i.totalValue = i.stockQuantity * i.avgUnitValue) ∧
    (∀ counted, ∀ i ∈ handleSaveInventory items counted,
      i.totalValue = i.stockQuantity * i.avgUnitValue) := by
  refine ⟨?_, ?_, ?_⟩
  · intro codeError f items' h i hi
    unfold NewEntry.handleSubmit at h
    split at h
    · exact absurd h (by simp)
    split at h
    · exact absurd h (by simp)
    split at h
    · exact absurd h (by simp)
    split at h
    · exact absurd h (by simp)
    rename_i itemToUpdate hfind
    simp only [Except.ok.injEq] at h
    subst h
    rcases List.mem_map.1 hi with ⟨a, ha, rfl⟩
    by_cases hid : a.id = itemToUpdate.id
    · rw [if_pos hid]
    · rw [if_neg hid]
      exact hinv a ha
  · intro itemId qty requester responsible items' h i hi
    unfold NewExit.handleSubmit at h
    split at h
    · exact absurd h (by simp)
    split at h
    · exact absurd h (by simp)
    split at h
    · exact absurd h (by simp)
    simp only [Except.ok.injEq] at h
    subst h
    rcases List.mem_map.1 hi with ⟨a, ha, rfl⟩
    by_cases hid : a.id = itemId
    · rw [if_pos hid]
    · rw [if_neg hid]
      exact hinv a ha
  · intro counted i hi
    rcases List.mem_map.1 hi with ⟨a, ha, rfl⟩
    exact applyCount_totalValue counted a (hinv a ha)

/-- Witness for C1: the invariant hypothesis holds for the concrete one-item
ledger `[itemW]`, and the theorem then yields the invariant for the item
produced by committing the count `"7"` for it. -/
theorem C1_total_value_invariant_witness :
    (applyCount [("1", "7")] itemW).totalValue =
      (applyCount [("1", "7")] itemW).stockQuantity *
        (applyCount [("1", "7")] itemW).avgUnitValue :=
  (C1_total_value_invariant [itemW] (by simp [itemW])).2.2 [("1", "7")]
    (applyCount [("1", "7")] itemW) (by simp [handleSaveInventory])

/-- The success branch of `NewExit.handleSubmit` cannot make any stock
quantity negative: the insufficient-stock guard checked the (unique) item with
the submitted id, every other item is unchanged. -/
theorem exit_ok_nonneg (items : List Item) (itemId : String) (qty : ℚ)
    (requester responsible : String) (items' : List Item)
    (hnodup : (items.map Item.id).Nodup)
    (h0 : ∀ i ∈ items, 0 ≤ i.stockQuantity)
    (h : NewExit.handleSubmit items itemId qty requester responsible = .ok items') :
    ∀ i ∈ items', 0 ≤ i.stockQuantity := by
  unfold NewExit.handleSubmit at h
  split at h
  · exact absurd h (by simp)
  split at h
  · exact absurd h (by simp)
  split at h
  · exact absurd h (by simp)
  rename_i hguard
  simp only [Except.ok.injEq] at h
  subst h
  intro i hi
  rcases List.mem_map.1 hi with ⟨a, ha, rfl⟩
  by_cases hid : a.id = itemId
  · rw [if_pos hid]
    have hfind : ∃ sel, items.find? (fun i => i.id = itemId) = some sel := by
      rw [← Option.isSome_iff_exists]
      rw [List.find?_isSome]
      exact ⟨a, ha, by simp [hid]⟩
    obtain ⟨sel, hsel⟩ := hfind
    rw [hsel] at hguard
    have hsela : sel = a := by
      refine nodup_inj hnodup (List.mem_of_find?_eq_some hsel) ha ?_
      have := List.find?_some hsel
      simp at this
      rw [this, hid]
    rw [hsela] at hguard
    simp at hguard
    show 0 ≤ a.stockQuantity - qty
    linarith
  · rw [if_neg hid]
    exact h0 a ha

/-- The commit of a reconciliation count cannot make any stock quantity
negative as long as every counted value that parses as a number is
non-negative. -/
theorem commit_nonneg (items : List Item) (counted : List (String × String))
    (h0 : ∀ i ∈ items, 0 ≤ i.stockQuantity)
    (hcnt : ∀ kv ∈ counted, ∀ q, parseFloat kv.2 = some q → 0 ≤ q) :
    ∀ i ∈ handleSaveInventory items counted, 0 ≤ i.stockQuantity := by
  intro i hi
  rcases List.mem_map.1 hi with ⟨a, ha, rfl⟩
  unfold applyCount
  split
  · rename_i countedStr hl
    split
    · split
      · rename_i q hp
        exact hcnt (a.id, countedStr) (lookup_mem hl) q hp
      · exact h0 a ha
    · exact h0 a ha
  · exact h0 a ha

/-- C2 (amended): starting from a state with non-negative quantities, entry
and exit operations always leave every stock quantity non-negative, and a
reconciliation commit leaves every stock quantity non-negative provided every
counted value that parses as a number is non-negative (the commit writes the
parsed counted value into the item unconditionally, so this proviso is
needed — see the counterexample). -/
theorem C2_nonneg_amended (items : List Item)
    (h0 : ∀ i ∈ items, 0 ≤ i.stockQuantity) :
    (∀ codeError f items', NewEntry.handleSubmit items codeError f = .ok items' →
      ∀ i ∈ items', 0 ≤ i.stockQuantity) ∧
    (∀ itemId qty requester responsible items', (items.map Item.id).Nodup →
      NewExit.handleSubmit items itemId qty requester responsible = .ok items' →
      ∀ i ∈ items', 0 ≤ i.stockQuantity) ∧
    (∀ counted, (∀ kv ∈ counted, ∀ q, parseFloat kv.2 = some q → 0 ≤ q) →
      ∀ i ∈ handleSaveInventory items counted, 0 ≤ i.stockQuantity) := by
  refine ⟨?_, ?_, ?_⟩
  · intro codeError f items' h i hi
    unfold NewEntry.handleSubmit at h
    split at h
    · exact absurd h (by simp)
    split at h
    · exact absurd h (by simp)
    split at h
    · exact absurd h (by simp)
    split at h
    · exact absurd h (by simp)
    rename_i hqpos x itemToUpdate hfind
    simp only [Except.ok.injEq] at h
    subst h
    rcases List.mem_map.1 hi with ⟨a, ha, rfl⟩
    by_cases hid : a.id = itemToUpdate.id
    · rw [if_pos hid]
      show 0 ≤ a.stockQuantity + f.quantity
      have h1 := h0 a ha
      have h2 : ¬ f.quantity ≤ 0 := hqpos
      linarith
    · rw [if_neg hid]
      exact h0 a ha
  · intro itemId qty requester responsible items' hnodup h
    exact exit_ok_nonneg items itemId qty requester responsible items' hnodup h0 h
  · intro counted hcnt
    exact commit_nonneg items counted h0 hcnt

/-- C2 counterexample: the claim as stated is false.  From the one-item state
`[itemW]` (its quantity 10 is non-negative), committing the reconciliation
count `"-5"` for the item — a single `handleSaveInventory` operation —
produces the item list whose sole item has `stockQuantity = -5 < 0`. -/
theorem C2_nonneg_counterexample :
    0 ≤ itemW.stockQuantity ∧
    handleSaveInventory [itemW] [("1", "-5")] = [applyCount [("1", "-5")] itemW] ∧
    (applyCount [("1", "-5")] itemW).stockQuantity < 0 := by
  refine ⟨by norm_num [itemW], rfl, ?_⟩
  have hs : (applyCount [("1", "-5")] itemW).stockQuantity =
      ratOfParse (true, 5, 0, 0, (false, 0)) := rfl
  rw [hs]
  norm_num [ratOfParse]

/-- Witness for C2 (amended): applying the theorem to the concrete ledger
`[itemW]` and committing the non-negative count `"7"` yields a non-negative
stock quantity. -/
theorem C2_nonneg_amended_witness :
    0 ≤ (applyCount [("1", "7")] itemW).stockQuantity :=
  (C2_nonneg_amended [itemW] (by simp [itemW])).2.2 [("1", "7")]
    (by
      intro kv hkv q hq
      simp at hkv
      subst hkv
      have hq' : parseFloat "7" = some q := hq
      rw [parseFloat_seven] at hq'
      rw [show q = 7 from (Option.some_injective _ hq').symm]
      norm_num)
    (applyCount [("1", "7")] itemW) (by simp [handleSaveInventory])

/-- C3: an exit request for an existing item whose (positive) quantity is
strictly greater than the item's current stock is rejected with the
insufficient-stock error — the handler returns before calling `setItems`, so
no item is altered in any field — and an exit that does succeed never leaves
any negative stock quantity. -/
theorem C3_insufficient_stock_rejected (items : List Item) (itemId : String) (qty : ℚ)
    (requester responsible : String) (item : Item)
    (hfind : items.find? (fun i => i.id = itemId) = some item)
    (hgt : item.stockQuantity < qty)
    (hpos : 0 < qty)
    (hid : itemId ≠ "") (hreq : requester ≠ "") (hresp : responsible ≠ "") :
    NewExit.handleSubmit items itemId qty requester responsible =
      .error .insufficientStock ∧
    (∀ qty' items', (items.map Item.id).Nodup →
      (∀ i ∈ items, 0 ≤ i.stockQuantity) →
      NewExit.handleSubmit items itemId qty' requester responsible = .ok items' →
      ∀ i ∈ items', 0 ≤ i.stockQuantity) := by
  constructor
  · unfold NewExit.handleSubmit
    rw [if_neg (by simp [hid, hreq, hresp])]
    rw [if_neg (by linarith : ¬ qty ≤ 0)]
    simp only [hfind]
    rw [if_pos (by simp [hgt])]
  · intro qty' items' hnodup h0 h
    exact exit_ok_nonneg items itemId qty' requester responsible items' hnodup h0 h

/-- Witness for C3: requesting an exit of 11 units from the concrete one-item
ledger `[itemW]` (stock 10) is rejected with the insufficient-stock error. -/
theorem C3_insufficient_stock_rejected_witness :
    NewExit.handleSubmit [itemW] "1" 11 "Fulano" "Sicrano" =
      .error .insufficientStock :=
  (C3_insufficient_stock_rejected [itemW] "1" 11 "Fulano" "Sicrano" itemW rfl
    (by norm_num [itemW]) (by norm_num) (by decide) (by decide) (by decide)).1

/-- The updated item produced by a successful entry of 5 units for `itemW`. -/
def itemWplus5 : Item :=
  { itemW with
    stockQuantity := itemW.stockQuantity + 5,
    totalValue := (itemW.stockQuantity + 5) * itemW.avgUnitValue }

/-- C4 counterexample: the claim as stated is false.  From the state with the
one-item ledger `[itemW]` and an empty movement history, a successful entry of
5 units changes the item's quantity but appends no movement record — the
resulting state has a changed ledger and a still-empty history, a state the
claim says must never be observable. -/
theorem C4_counterexample_no_history_append :
    NewEntry.handleSubmitApp ⟨[itemW], []⟩ false
        ⟨"PAR-001", "Parafuso", 5, "Fornecedor", "NF-1"⟩ =
      .ok ⟨[itemWplus5], []⟩ ∧
    itemWplus5 ≠ itemW := by
  constructor
  · rfl
  · intro hcontra
    have h1 : itemW.stockQuantity + 5 = itemW.stockQuantity :=
      congrArg Item.stockQuantity hcontra
    norm_num [itemW] at h1

/-- C4 (amended): a successful entry or exit is atomic over the item list —
in one list replacement the matched item gets its stock quantity updated and
its total value recomputed while every other field and every other item is
unchanged — but no movement record is ever appended: the movement history is
left exactly as it was (the two components have no access to the history
state). -/
theorem C4_atomic_ledger_only (s : AppState) :
    (∀ codeError f s', NewEntry.handleSubmitApp s codeError f = .ok s' →
      s'.history = s.history ∧
      ∃ target, s.items.find? (fun i => jsToLower i.code = jsToLower f.code) = some target ∧
        List.Forall₂ (fun a b =>
          (a.id = target.id →
            b.stockQuantity = a.stockQuantity + f.quantity ∧
            b.totalValue = (a.stockQuantity + f.quantity) * a.avgUnitValue ∧
            b.id = a.id ∧ b.code = a.code ∧ b.description = a.description ∧
            b.category = a.category ∧ b.location = a.location ∧ b.unit = a.unit ∧
            b.minQuantity = a.minQuantity ∧ b.leadTimeDays = a.leadTimeDays ∧
            b.avgUnitValue = a.avgUnitValue) ∧
          (a.id ≠ target.id → b = a)) s.items s'.items) ∧
    (∀ itemId qty requester responsible s',
      NewExit.handleSubmitApp s itemId qty requester responsible = .ok s' →
      s'.history = s.history ∧
        List.Forall₂ (fun a b =>
          (a.id = itemId →
            b.stockQuantity = a.stockQuantity - qty ∧
            b.totalValue = (a.stockQuantity - qty) * a.avgUnitValue ∧
            b.id = a.id ∧ b.code = a.code ∧ b.description = a.description ∧
            b.category = a.category ∧ b.location = a.location ∧ b.unit = a.unit ∧
            b.minQuantity = a.minQuantity ∧ b.leadTimeDays = a.leadTimeDays ∧
            b.avgUnitValue = a.avgUnitValue) ∧
          (a.id ≠ itemId → b = a)) s.items s'.items) := by
  constructor
  · intro codeError f s' h
    unfold NewEntry.handleSubmitApp at h
    cases hh : NewEntry.handleSubmit s.items codeError f with
    | error e => rw [hh] at h; exact absurd h (by simp [Except.map])
    | ok items'' =>
      rw [hh] at h
      simp only [Except.map, Except.ok.injEq] at h
      subst h
      refine ⟨rfl, ?_⟩
      unfold NewEntry.handleSubmit at hh
      split at hh
      · exact absurd hh (by simp)
      split at hh
      · exact absurd hh (by simp)
      split at hh
      · exact absurd hh (by simp)
      split at hh
      · exact absurd hh (by simp)
      rename_i hqpos x target hfind
      refine ⟨target, hfind, ?_⟩
      simp only [Except.ok.injEq] at hh
      rw [← hh]
      rw [List.forall₂_map_right_iff]
      rw [List.forall₂_same]
      intro a ha
      constructor
      · intro hid
        rw [if_pos hid]
        refine ⟨rfl, rfl, rfl, rfl, rfl, rfl, rfl, rfl, rfl, rfl, rfl⟩
      · intro hid
        rw [if_neg hid]
  · intro itemId qty requester responsible s' h
    unfold NewExit.handleSubmitApp at h
    cases hh : NewExit.handleSubmit s.items itemId qty requester responsible with
    | error e => rw [hh] at h; exact absurd h (by simp [Except.map])
    | ok items'' =>
      rw [hh] at h
      simp only [Except.map, Except.ok.injEq] at h
      subst h
      refine ⟨rfl, ?_⟩
      unfold NewExit.handleSubmit at hh
      split at hh
      · exact absurd hh (by simp)
      split at hh
      · exact absurd hh (by simp)
      split at hh
      · exact absurd hh (by simp)
      simp only [Except.ok.injEq] at hh
      rw [← hh]
      rw [List.forall₂_map_right_iff]
      rw [List.forall₂_same]
      intro a ha
      constructor
      · intro hid
        rw [if_pos hid]
        refine ⟨rfl, rfl, rfl, rfl, rfl, rfl, rfl, rfl, rfl, rfl, rfl⟩
      · intro hid
        rw [if_neg hid]

/-- Witness for C4 (amended): the concrete successful entry of 5 units from
the state `⟨[itemW], []⟩` leaves the movement history empty. -/
theorem C4_atomic_ledger_only_witness :
    (AppState.mk [itemWplus5] []).history = (AppState.mk [itemW] []).history :=
  ((C4_atomic_ledger_only ⟨[itemW], []⟩).1 false
    ⟨"PAR-001", "Parafuso", 5, "Fornecedor", "NF-1"⟩ ⟨[itemWplus5], []⟩ rfl).1

/-- Modelled from the spec: the claim's reading of `countedItemsCount` —
"items with any non-blank counted value, scoped to the currently
filtered/visible item set" — to be compared with the `summary` computed by
the source. -/
def countedItemsCountSpec (filtered : List Item) (counted : List (String × String)) : ℕ :=
  (filtered.filter (fun i =>
    match counted.lookup i.id with
    | some v => jsTrim v ≠ ""
    | none => false)).length

/-- A second concrete item, in a different category and location than
`itemW`. -/
def itemX : Item :=
  { id := "2", code := "CHP-010", description := "Chapa", category := "EPI",
    location := "B2-05", unit := "KG", stockQuantity := 450, minQuantity := 1000,
    leadTimeDays := 15, avgUnitValue := 1, totalValue := 450 }

/-- C5 counterexample: the claim as stated is false.  With the item list
`[itemW, itemX]` filtered down to the category of `itemW` alone, and a
non-blank count recorded for the filtered-out item `itemX`, the source's
`summary` reports `countedItemsCount = 1`, while the claim's
filtered-set-scoped count is `0` — the source counts the whole counted map,
not the filtered item set. -/
theorem C5_counterexample_count_not_scoped :
    (summary (filteredItems [itemW, itemX] "Fixadores" "" "")
        [itemW, itemX] [("2", "5")]).countedItemsCount = 1 ∧
    countedItemsCountSpec (filteredItems [itemW, itemX] "Fixadores" "" "")
        [("2", "5")] = 0 := by
  exact ⟨rfl, rfl⟩

/-- C5 (amended): `summary` returns `countedItemsCount` equal to the number
of entries of the counted map (a JavaScript object, hence with distinct keys)
whose value does not trim to the empty string — regardless of the filtered
item set — `progress` equal to `countedItemsCount × 100 / filteredItems.length`
(0 when the filtered item set is empty), `divergenceCount` equal to the size
of the divergence list, and `totalAdjustmentValue` equal to the sum over all
divergences of `difference × avgUnitValue`. -/
theorem C5_summary_amended (filtered items : List Item)
    (counted : List (String × String))
    (hnodup : (counted.map Prod.fst).Nodup) :
    (summary filtered items counted).countedItemsCount =
      (counted.filter (fun kv => jsTrim kv.2 ≠ "")).length ∧
    (summary filtered items counted).progress =
      (if filtered.length = 0 then 0 else
        ((summary filtered items counted).countedItemsCount : ℚ) * 100 /
          (filtered.length : ℚ)) ∧
    (summary filtered items counted).divergenceCount =
      (itemsToUpdate items counted).length ∧
    (summary filtered items counted).totalAdjustmentValue =
      ((itemsToUpdate items counted).map
        (fun d => d.difference * d.item.avgUnitValue)).sum := by
  have hcount : (summary filtered items counted).countedItemsCount =
      (counted.filter (fun kv => jsTrim kv.2 ≠ "")).length := by
    show (((counted.filter (fun kv => jsTrim kv.2 ≠ "")).map Prod.fst).dedup).length = _
    have hsub : ((counted.filter (fun kv => jsTrim kv.2 ≠ "")).map Prod.fst).Nodup :=
      List.Sublist.nodup (List.Sublist.map Prod.fst (List.filter_sublist counted)) hnodup
    rw [List.Nodup.dedup hsub, List.length_map]
  refine ⟨hcount, ?_, rfl, ?_⟩
  · show (if 0 < filtered.length then
        ((((counted.filter (fun kv => jsTrim kv.2 ≠ "")).map Prod.fst).dedup).length : ℚ) /
          (filtered.length : ℚ) * 100 else 0) = _
    rcases Nat.eq_zero_or_pos filtered.length with hz | hp
    · rw [if_neg (by simp [hz]), if_pos hz]
    · rw [if_pos hp, if_neg (Nat.pos_iff_ne_zero.1 hp)]
      rw [div_mul_eq_mul_div]
      rfl
  · show (itemsToUpdate items counted).foldl
        (fun sum d => sum + d.difference * d.item.avgUnitValue) 0 = _
    rw [foldl_add_map]
    rw [zero_add]

/-- Witness for C5 (amended): on the concrete duplicate-free counted map
`[("1", "7")]` the summary's divergence count is the length of the divergence
list. -/
theorem C5_summary_amended_witness :
    (summary [itemW] [itemW] [("1", "7")]).divergenceCount =
      (itemsToUpdate [itemW] [("1", "7")]).length :=
  (C5_summary_amended [itemW] [itemW] [("1", "7")] (by simp)).2.2.1

/-- C6: every divergence produced by `itemsToUpdate` comes from a counted
entry that is non-blank, parses as a number, matches an existing item, and
differs numerically from that item's current stock quantity; the divergence
carries the parsed value as `newQuantity` and `parsed − stockQuantity` as
`difference`.  Adding an entry that is blank, non-numeric, or numerically
equal to the matched item's system quantity leaves the divergence list
unchanged (such entries are excluded), and a commit leaves an item whose
counted value is the empty string unchanged. -/
theorem C6_divergence_computation (items : List Item)
    (counted : List (String × String)) :
    (∀ d ∈ itemsToUpdate items counted,
      ∃ kv ∈ counted, kv.2 ≠ "" ∧
        items.find? (fun i => i.id = kv.1) = some d.item ∧
        ∃ q, parseFloat kv.2 = some q ∧ q ≠ d.item.stockQuantity ∧
          d.newQuantity = q ∧ d.difference = q - d.item.stockQuantity) ∧
    (∀ k v, (v = "" ∨ parseFloat v = none ∨
        (∀ item, items.find? (fun i => i.id = k) = some item →
          parseFloat v = some item.stockQuantity)) →
      itemsToUpdate items ((k, v) :: counted) = itemsToUpdate items counted) ∧
    (∀ item : Item, counted.lookup item.id = some "" →
      applyCount counted item = item) := by
  refine ⟨?_, ?_, ?_⟩
  · intro d hd
    rcases List.mem_filterMap.1 hd with ⟨kv, hkv, hf⟩
    refine ⟨kv, hkv, ?_⟩
    by_cases hblank : kv.2 = ""
    · rw [if_pos hblank] at hf
      exact absurd hf (by simp)
    rw [if_neg hblank] at hf
    refine ⟨hblank, ?_⟩
    split at hf
    · rename_i item q hfind hparse
      split at hf
      · exact absurd hf (by simp)
      · rename_i hne
        simp only [Option.some.injEq] at hf
        rw [← hf]
        exact ⟨hfind, q, hparse, fun hq => hne hq.symm, rfl, rfl⟩
    · exact absurd hf (by simp)
  · intro k v hbad
    unfold itemsToUpdate
    rw [List.filterMap_cons]
    by_cases hblank : v = ""
    · simp [hblank]
    rcases hfind : items.find? (fun i => i.id = k) with _ | item
    · simp [hblank, hfind]
    rcases hbad with hb | hnon | heqq
    · exact absurd hb hblank
    · simp [hblank, hfind, hnon]
    · have hpv : parseFloat v = some item.stockQuantity := heqq item hfind
      simp [hblank, hfind, hpv]
  · intro item hl
    unfold applyCount
    split
    · rename_i countedStr hlk
      rw [hlk] at hl
      have hv : countedStr = "" := Option.some_injective _ hl
      subst hv
      rw [if_neg (by decide : ¬ jsTrim "" ≠ "")]
    · rfl

/-- Witness for C6: committing a count whose raw value is the empty string
leaves the concrete item unchanged. -/
theorem C6_divergence_computation_witness :
    applyCount [("1", "")] itemW = itemW :=
  (C6_divergence_computation [itemW] [("1", "")]).2.2 itemW rfl

/-- Mapping a function that fixes every member of a list is the identity. -/
theorem map_eq_self {α : Type} {l : List α} {f : α → α} (h : ∀ a ∈ l, f a = a) :
    l.map f = l := by
  induction l with
  | nil => rfl
  | cons a tl ih =>
    rw [List.map_cons, h a (List.mem_cons_self a tl),
      ih (fun b hb => h b (List.mem_cons_of_mem a hb))]

/-- C7: when every counted value that parses as a number equals its item's
current system quantity, the divergence list is empty and the commit changes
no item — every item of the ledger (each satisfying the total-value
invariant of the data model) is returned field for field unchanged. -/
theorem C7_noop_commit (items : List Item) (counted : List (String × String))
    (hinv : ∀ i ∈ items, i.totalValue = i.stockQuantity * i.avgUnitValue)
    (heq : ∀ kv ∈ counted, ∀ q, parseFloat kv.2 = some q →
      ∀ item ∈ items, item.id = kv.1 → q = item.stockQuantity) :
    itemsToUpdate items counted = [] ∧
    handleSaveInventory items counted = items := by
  constructor
  · unfold itemsToUpdate
    rw [List.filterMap_eq_nil_iff]
    intro kv hkv
    by_cases hblank : kv.2 = ""
    · rw [if_pos hblank]
    rw [if_neg hblank]
    split
    · rename_i item q hfind hparse
      have hitem : item ∈ items := List.mem_of_find?_eq_some hfind
      have hid : item.id = kv.1 := by
        have := List.find?_some hfind
        simpa using this
      have hq : q = item.stockQuantity := heq kv hkv q hparse item hitem hid
      rw [if_pos hq.symm]
    · rfl
  · apply map_eq_self
    intro a ha
    unfold applyCount
    split
    · rename_i v hl
      split
      · split
        · rename_i q hparse
          have hq : q = a.stockQuantity :=
            heq (a.id, v) (lookup_mem hl) q hparse a ha rfl
          subst hq
          have hinva := (hinv a ha).symm
          obtain ⟨id, code, descr, cat, loc, un, sq, mq, lt, av, tv⟩ := a
          simp only [Item.mk.injEq, and_true, true_and]
          exact hinva
        · rfl
      · rfl
    · rfl

theorem parseFloat_ten : parseFloat "10" = some 10 := by
  rw [parseFloat, show parseFloatRaw "10" = some (false, 10, 0, 0, (false, 0)) from by decide]
  norm_num [ratOfParse]

/-- Witness for C7: counting the concrete item (stock 10) as `"10"` and
committing changes nothing. -/
theorem C7_noop_commit_witness :
    handleSaveInventory [itemW] [("1", "10")] = [itemW] :=
  (C7_noop_commit [itemW] [("1", "10")] (by simp [itemW])
    (by
      intro kv hkv q hq item hitem hid
      simp at hkv
      subst hkv
      have hq' : parseFloat "10" = some q := hq
      rw [parseFloat_ten] at hq'
      rw [show q = 10 from (Option.some_injective _ hq').symm]
      simp at hitem
      subst hitem
      rfl)).2

/-- C8: an attempt to create a new item (a draft with no id and non-blank
required fields) whose trimmed, lower-cased code equals the trimmed,
lower-cased code of an existing item always fails with the duplicate-code
outcome, and the item list — including the existing item — is returned
unchanged: no new item is appended. -/
theorem C8_duplicate_code_rejected (items : List Item) (draft : StockList.ItemDraft)
    (newId : String)
    (hnew : draft.id = none)
    (hcode : jsTrim draft.code ≠ "") (hdesc : jsTrim draft.description ≠ "")
    (hcat : jsTrim draft.category ≠ "") (hloc : jsTrim draft.location ≠ "")
    (hunit : jsTrim draft.unit ≠ "")
    (hdup : ∃ item ∈ items,
      jsToLower (jsTrim item.code) = jsToLower (jsTrim draft.code)) :
    StockList.handleSaveItem items draft newId = (.duplicateCode, items) := by
  unfold StockList.handleSaveItem
  split
  · rename_i id hid
    rw [hnew] at hid
    exact absurd hid (by simp)
  · rw [if_neg (by simp [hcode, hdesc, hcat, hloc, hunit])]
    rw [if_pos (by
      rw [List.any_eq_true]
      obtain ⟨item, hm, he⟩ := hdup
      exact ⟨item, hm, by simp [he]⟩)]

/-- A creation draft whose code trims and lower-cases to the code of
`itemW`. -/
def draftW : StockList.ItemDraft :=
  { id := none, code := " par-001 ", description := "Parafuso fino",
    category := "Fixadores", location := "A1-01", unit := "UN",
    stockQuantity := 1, minQuantity := 0, leadTimeDays := 0,
    avgUnitValue := 1, totalValue := 0 }

/-- Witness for C8: creating `draftW` (code `" par-001 "`) over the ledger
`[itemW]` (code `"PAR-001"`) is rejected as a duplicate and the list is
unchanged. -/
theorem C8_duplicate_code_rejected_witness :
    StockList.handleSaveItem [itemW] draftW "item-2" = (.duplicateCode, [itemW]) :=
  C8_duplicate_code_rejected [itemW] draftW "item-2" rfl (by decide) (by decide)
    (by decide) (by decide) (by decide) ⟨itemW, by simp, by decide⟩

/-- C9: a restore whose file contents do not parse as JSON, or whose parsed
snapshot lacks any of the three `items`/`users`/`history` fields or has any
of them not an array, fails and leaves the current state completely
untouched; when the snapshot does validate, the whole state is replaced by
the snapshot's three arrays — independent of the previous state, so no
partial replace can occur. -/
theorem C9_restore_validation (parsed : Option Json) (s : BackupState) :
    ((parsed = none ∨ ∃ data, parsed = some data ∧ validSnapshot data = false) →
      handleRestoreBackup parsed s = (s, false)) ∧
    (∀ data, parsed = some data → validSnapshot data = true →
      ∃ is us hs, data.getField "items" = some (.arr is) ∧
        data.getField "users" = some (.arr us) ∧
        data.getField "history" = some (.arr hs) ∧
        handleRestoreBackup parsed s = (⟨is, us, hs⟩, true)) := by
  constructor
  · intro h
    rcases h with rfl | ⟨data, rfl, hbad⟩
    · rfl
    · show restoreFromData data s = (s, false)
      unfold restoreFromData
      rw [if_neg (by simp [hbad])]
  · intro data hp hvalid
    subst hp
    have hsplit := hvalid
    unfold validSnapshot at hsplit
    simp only [Bool.and_eq_true] at hsplit
    obtain ⟨⟨t1, t2⟩, t3⟩ := hsplit
    have h1 : ∃ l, data.getField "items" = some (.arr l) := by
      split at t1
      · rename_i l heq
        exact ⟨l, heq⟩
      · exact absurd t1 (by simp)
    have h2 : ∃ l, data.getField "users" = some (.arr l) := by
      split at t2
      · rename_i l heq
        exact ⟨l, heq⟩
      · exact absurd t2 (by simp)
    have h3 : ∃ l, data.getField "history" = some (.arr l) := by
      split at t3
      · rename_i l heq
        exact ⟨l, heq⟩
      · exact absurd t3 (by simp)
    obtain ⟨is, his⟩ := h1
    obtain ⟨us, hus⟩ := h2
    obtain ⟨hs, hhs⟩ := h3
    refine ⟨is, us, hs, his, hus, hhs, ?_⟩
    show restoreFromData data s = _
    unfold restoreFromData
    rw [if_pos hvalid, his, hus, hhs]

/-- Witness for C9: restoring a snapshot that has an `items` array but no
`users`/`history` fields fails and leaves the concrete state untouched. -/
theorem C9_restore_validation_witness :
    handleRestoreBackup (some (Json.obj [("items", Json.arr [])]))
      ⟨[Json.str "keep"], [], []⟩ = (⟨[Json.str "keep"], [], []⟩, false) :=
  (C9_restore_validation (some (Json.obj [("items", Json.arr [])]))
    ⟨[Json.str "keep"], [], []⟩).1
    (Or.inr ⟨Json.obj [("items", Json.arr [])], rfl, rfl⟩)

/-- C10: a counted-map entry whose key matches no item's id is ignored by
both reconciliation operations — prepending such an entry changes neither the
divergence list nor the committed item list — and every divergence that is
produced refers to an item of the current item list.  (Both operations are
total Lean functions over arbitrary counted maps, mirroring that the source
never throws: missing keys yield `undefined`/`find` misses that are all
checked.) -/
theorem C10_unknown_ids_ignored (items : List Item) (counted : List (String × String))
    (k v : String) (hk : items.find? (fun i => i.id = k) = none) :
    itemsToUpdate items ((k, v) :: counted) = itemsToUpdate items counted ∧
    handleSaveInventory items ((k, v) :: counted) = handleSaveInventory items counted ∧
    (∀ d ∈ itemsToUpdate items counted, d.item ∈ items) := by
  have hknot : ∀ i ∈ items, ¬ i.id = k := by
    intro i hi
    have := List.find?_eq_none.1 hk i hi
    simpa using this
  refine ⟨?_, ?_, ?_⟩
  · unfold itemsToUpdate
    rw [List.filterMap_cons]
    by_cases hblank : v = ""
    · simp [hblank]
    · simp [hblank, hk]
  · apply List.map_congr_left
    intro a ha
    unfold applyCount
    rw [show List.lookup a.id ((k, v) :: counted) = List.lookup a.id counted from by
      rw [List.lookup_cons, beq_false_of_ne (hknot a ha)]]
  · intro d hd
    rcases List.mem_filterMap.1 hd with ⟨kv, hkv, hf⟩
    by_cases hblank : kv.2 = ""
    · rw [if_pos hblank] at hf
      exact absurd hf (by simp)
    rw [if_neg hblank] at hf
    split at hf
    · rename_i item q hfind hparse
      split at hf
      · exact absurd hf (by simp)
      · simp only [Option.some.injEq] at hf
        rw [← hf]
        exact List.mem_of_find?_eq_some hfind
    · exact absurd hf (by simp)

/-- Witness for C10: for the concrete ledger `[itemW]`, the counted entry
`("999", "5")` (no item has id `"999"`) commits to the same item list as the
empty counted map. -/
theorem C10_unknown_ids_ignored_witness :
    handleSaveInventory [itemW] [("999", "5")] = handleSaveInventory [itemW] [] :=
  (C10_unknown_ids_ignored [itemW] [] "999" "5" rfl).2.1

end Almoxarifado
